import Mathlib

/-!
Verification development for the PhysNet ASE calculator (`calculator.py`).

The file shallowly embeds the calculator's cache/invalidation logic, the
all-pairs index construction `get_indices`, the mode dispatch of `calculate`,
and the evidential-uncertainty derivations of its two branches.  Machine
floats are modelled as exact rationals (`ℚ`); the claims checked here are
exact arithmetic identities and control-flow properties, for which the
rational model is faithful.  The external neural network and the external
ASE neighbor search are opaque capabilities and are modelled as function
parameters (the network) and an interface contract (the neighbor search).
-/

namespace PhysNetCalc

/-- An ASE atomic configuration, restricted to the fields that ASE's
`Atoms.__eq__` compares by value (and that `calculation_required` therefore
checks): atomic numbers, positions, unit cell and periodic-boundary flags.
Positions and cell entries are modelled as exact rationals. -/
structure Atoms where
  numbers : List ℕ
  positions : List (ℚ × ℚ × ℚ)
  cell : List (ℚ × ℚ × ℚ)
  pbc : Bool × Bool × Bool
deriving DecidableEq

/-- `any(atoms.get_pbc())` (calculator.py line 181). -/
def anyPbc (a : Atoms) : Bool := a.pbc.1 || a.pbc.2.1 || a.pbc.2.2

/-- `get_indices` (calculator.py lines 151-168), on the atom count `N`.
`idx = torch.arange(N)`; `idx_i = idx.repeat(N-1)` is `N-1` concatenated
copies of `idx`, later sorted ascending (`torch.sort`); `idx_j` starts as
`torch.roll(idx, -1)` (rotate left by 1) and, when `N >= 2`, the loop over
`Na in torch.arange(2, N)` appends `torch.roll(idx, -Na)` for
`Na = 2, ..., N-1`. -/
def get_indices (N : ℕ) : List ℕ × List ℕ :=
  let idx := List.range N
  let idx_i_raw := (List.replicate (N - 1) idx).flatten
  let idx_j0 := idx.rotate 1
  let idx_j :=
    if 2 ≤ N then
      (List.range' 2 (N - 2)).foldl (fun acc k => acc ++ idx.rotate k) idx_j0
    else idx_j0
  (idx_i_raw.mergeSort (fun a b => decide (a ≤ b)), idx_j)

/-- The sorted `idx_i` list in closed form: each atom index `q < N`
repeated `N - 1` times, in ascending order. -/
def idxIFlat (N : ℕ) : List ℕ :=
  (List.range N).flatMap fun q => List.replicate (N - 1) q

/-- The `idx_j` list in closed form: the concatenation of the left-rotations
of `[0, ..., N-1]` by `1, ..., N-1`. -/
def idxJFlat (N : ℕ) : List ℕ :=
  (List.range (N - 1)).flatMap fun k => (List.range N).rotate (k + 1)

/-- The packed per-configuration output of the network's MD evidential entry
point: `pred = [energy, dipole, L00, L10, L11, nu]` (calculator.py
lines 243-253). -/
structure MDPred where
  energy : ℚ
  dipole : ℚ
  L00 : ℚ
  L10 : ℚ
  L11 : ℚ
  nu : ℚ
deriving DecidableEq

/-- The external, pre-trained network, consumed through a fixed call
contract: its outputs are opaque functions of the queried configuration.
`lambdas`, `alpha`, `beta` are the three evidential shape parameters of the
simple/Lipschitz entry points; `mdPred` is the packed output of the MD entry
points. -/
structure Model where
  energy : Atoms → ℚ
  lambdas : Atoms → ℚ
  alpha : Atoms → ℚ
  beta : Atoms → ℚ
  charges : Atoms → List ℚ
  forces : Atoms → List (ℚ × ℚ × ℚ)
  hessianOut : Atoms → List (List ℚ)
  mdPred : Atoms → MDPred
  mdForces : Atoms → List (ℚ × ℚ × ℚ)
  mdHessianOut : Atoms → List (List ℚ)

/-- Constructor arguments of `PhysNetCalculator.__init__` that the claims
depend on, together with the parsed config values (`args.cutoff`,
`args.DER_type`) and the external capabilities.  `nlistPairs` is the result
of the external ASE neighbor search at a given numeric cutoff. -/
structure CalcConfig where
  cutoff : ℚ
  lr_cut : Option ℚ
  DER_type : Option String
  hessian : Bool
  model : Model
  nlistPairs : ℚ → Atoms → List ℕ × List ℕ

/-- The immutable part of the calculator set up by `__init__`
(calculator.py lines 81-128). -/
structure Calc where
  sr_cutoff : ℚ
  lr_cutoff : Option ℚ
  use_neighborlist : Bool
  DER_type : Option String
  hessian_active : Bool
  model : Model
  nlistPairs : ℚ → Atoms → List ℕ × List ℕ
  idx_i : List ℕ
  idx_j : List ℕ

/-- `__init__` lines 81-128: the `lr_cut is None` branch sets
`_lr_cutoff = None` and `_use_neighborlist = False`; otherwise both are set
from `lr_cut`.  The static all-pairs index is built once from the atom
count. -/
def mkCalc (cfg : CalcConfig) (atoms : Atoms) : Calc :=
  let base : Calc :=
    { sr_cutoff := cfg.cutoff
      lr_cutoff := none
      use_neighborlist := false
      DER_type := cfg.DER_type
      hessian_active := cfg.hessian
      model := cfg.model
      nlistPairs := cfg.nlistPairs
      idx_i := (get_indices atoms.numbers.length).1
      idx_j := (get_indices atoms.numbers.length).2 }
  match cfg.lr_cut with
  | none => base
  | some lc => { base with lr_cutoff := some lc, use_neighborlist := true }

/-- The mutable cached state of the calculator: the last configuration
snapshot (`_last_atoms`), the cached results, plus an instrumentation
counter of how many times `calculate` has run. -/
structure CalcState where
  last_atoms : Option Atoms
  last_energy : ℚ
  last_forces : List (ℚ × ℚ × ℚ)
  last_hessian : Option (List (List ℚ))
  sigma2 : ℚ
  var : ℚ
  calcCount : ℕ
deriving DecidableEq

/-- The state at the start of `__init__` before the warm-up evaluation:
`self._last_atoms = None` (line 140), no results yet. -/
def initState : CalcState :=
  { last_atoms := none
    last_energy := 0
    last_forces := []
    last_hessian := none
    sigma2 := 0
    var := 0
    calcCount := 0 }

/-- `calculation_required` (calculator.py lines 170-176): true when no
cached configuration exists, or when the queried configuration differs by
value (`atoms != self.last_atoms`, ASE value comparison of numbers,
positions, cell and pbc) from the cached one. -/
def calculation_required (s : CalcState) (atoms : Atoms) : Bool :=
  match s.last_atoms with
  | none => true
  | some la => decide (atoms ≠ la)

/-- Python truthiness of a string constant: nonempty strings are truthy. -/
def pyTruthy (s : String) : Bool := decide (s ≠ "")

/-- Which arm of the `if self.DER_type == 'simple' or 'Lipz': ... elif
self.DER_type == 'MD': ...` chain runs.  `skip` is the silent fall-through
when no arm matches (the chain has no `else` and no `raise`). -/
inductive Branch where
  | simple
  | md
  | skip
deriving DecidableEq

/-- The dispatch condition of `calculate` (calculator.py lines 205, 233).
Line 205 is the Python expression `self.DER_type == 'simple' or 'Lipz'`,
whose truth value is `(DER_type == 'simple') or truthy('Lipz')`. -/
def selectBranch (t : Option String) : Branch :=
  if (decide (t = some "simple") || pyTruthy "Lipz") = true then Branch.simple
  else if t = some "MD" then Branch.md
  else Branch.skip

/-- Modelled from the spec: the simulation environment's distance-cutoff
neighbor search (ASE `neighbor_list`, external to this repository), which
"given a configuration, produce[s] a candidate pair list under a distance
cutoff".  It requires a numeric cutoff; invoked with `None` it fails
instead of producing pairs. -/
def ase_neighbor_list (nlistPairs : ℚ → Atoms → List ℕ × List ℕ)
    (cutoff : Option ℚ) (atoms : Atoms) : Except String (List ℕ × List ℕ) :=
  match cutoff with
  | none => Except.error "neighbor_list: cutoff must be a number, got None"
  | some c => Except.ok (nlistPairs c atoms)

/-- The simple/Lipschitz branch uncertainty derivation (calculator.py lines
221-222): `sigma2 = beta / (alpha - 1)` and `var = (1 / lambdas) * sigma2`. -/
def simpleUncertainty (lambdas alpha beta : ℚ) : ℚ × ℚ :=
  let s2 := beta / (alpha - 1)
  (s2, (1 / lambdas) * s2)

/-- The 2x2 lower-triangular matrix `L` packed into the MD prediction
(calculator.py lines 247-250). -/
def mdL (p : MDPred) : Matrix (Fin 2) (Fin 2) ℚ :=
  !![p.L00, 0; p.L10, p.L11]

/-- `sigma = L @ L.T` (calculator.py line 251). -/
def mdSigma (p : MDPred) : Matrix (Fin 2) (Fin 2) ℚ :=
  mdL p * Matrix.transpose (mdL p)

/-- `sigma2 = nu / (nu - 3) * sigma` (calculator.py line 255). -/
def mdSigma2Mat (p : MDPred) : Matrix (Fin 2) (Fin 2) ℚ :=
  (p.nu / (p.nu - 3)) • mdSigma p

/-- `var = 1 / nu * sigma2` (calculator.py line 256). -/
def mdVarMat (p : MDPred) : Matrix (Fin 2) (Fin 2) ℚ :=
  (1 / p.nu) • mdSigma2Mat p

/-- What the MD branch actually stores (calculator.py lines 259-260):
`self._sigma2 = sigma[0, 0]` (the raw covariance entry, not `sigma2[0, 0]`)
and `self._var = var[0, 0]`. -/
def mdStored (p : MDPred) : ℚ × ℚ :=
  (mdSigma p 0 0, mdVarMat p 0 0)

/-- The result dictionary and cache written by the simple/Lipschitz branch
of `calculate` (calculator.py lines 205-231 and 276-279): results from the
network, `sigma2`/`var` from `simpleUncertainty`, the Hessian only when the
Hessian flag is set, a value-copy of the queried configuration as the new
cache key, and one more `calculate` invocation counted. -/
def simpleState (c : Calc) (s : CalcState) (atoms : Atoms) : CalcState :=
  { last_atoms := some atoms
    last_energy := c.model.energy atoms
    last_forces := c.model.forces atoms
    last_hessian := if c.hessian_active then some (c.model.hessianOut atoms) else none
    sigma2 := (simpleUncertainty (c.model.lambdas atoms) (c.model.alpha atoms) (c.model.beta atoms)).1
    var := (simpleUncertainty (c.model.lambdas atoms) (c.model.alpha atoms) (c.model.beta atoms)).2
    calcCount := s.calcCount + 1 }

/-- Likewise for the MD branch (calculator.py lines 233-268 and 276-279):
energy is `pred[0]`, the stored `sigma2`/`var` come from `mdStored`. -/
def mdState (c : Calc) (s : CalcState) (atoms : Atoms) : CalcState :=
  { last_atoms := some atoms
    last_energy := (c.model.mdPred atoms).energy
    last_forces := c.model.mdForces atoms
    last_hessian := if c.hessian_active then some (c.model.mdHessianOut atoms) else none
    sigma2 := (mdStored (c.model.mdPred atoms)).1
    var := (mdStored (c.model.mdPred atoms)).2
    calcCount := s.calcCount + 1 }

/-- The outcome of one `calculate` call: the new state and which dispatch
arm ran. -/
structure CalcOut where
  state : CalcState
  branch : Branch
deriving DecidableEq

/-- `calculate` (calculator.py lines 178-279).  Pair indices: when
`self.use_neighborlist or any(atoms.get_pbc())`, the distance-cutoff search
runs at `self.lr_cutoff` and again at `self.sr_cutoff`; otherwise the static
all-pairs index is reused.  Then the mode dispatch of line 205/233 selects
the branch; in the `skip` case no arm runs, yet lines 276-279 still execute,
re-storing the previous results and caching a copy of the queried atoms. -/
def calculate (c : Calc) (s : CalcState) (atoms : Atoms) : Except String CalcOut :=
  let pairsE : Except String (List ℕ × List ℕ) :=
    if c.use_neighborlist || anyPbc atoms then
      match ase_neighbor_list c.nlistPairs c.lr_cutoff atoms,
            ase_neighbor_list c.nlistPairs (some c.sr_cutoff) atoms with
      | Except.ok full, Except.ok _ => Except.ok full
      | Except.error e, _ => Except.error e
      | Except.ok _, Except.error e => Except.error e
    else Except.ok (c.idx_i, c.idx_j)
  match pairsE with
  | Except.error e => Except.error e
  | Except.ok _ =>
    match selectBranch c.DER_type with
    | Branch.simple => Except.ok { state := simpleState c s atoms, branch := Branch.simple }
    | Branch.md => Except.ok { state := mdState c s atoms, branch := Branch.md }
    | Branch.skip =>
      Except.ok
        { state := { s with last_atoms := some atoms, calcCount := s.calcCount + 1 }
          branch := Branch.skip }

/-- `get_potential_energy` (calculator.py lines 283-287): recompute iff
`calculation_required`, then return `results['energy']`. -/
def get_potential_energy (c : Calc) (s : CalcState) (atoms : Atoms) :
    Except String (ℚ × CalcState) :=
  if calculation_required s atoms then
    match calculate c s atoms with
    | Except.error e => Except.error e
    | Except.ok r => Except.ok (r.state.last_energy, r.state)
  else Except.ok (s.last_energy, s)

/-- `get_potential_energy_and_uncertainty` (lines 289-294). -/
def get_potential_energy_and_uncertainty (c : Calc) (s : CalcState) (atoms : Atoms) :
    Except String ((ℚ × ℚ × ℚ) × CalcState) :=
  if calculation_required s atoms then
    match calculate c s atoms with
    | Except.error e => Except.error e
    | Except.ok r => Except.ok ((r.state.last_energy, r.state.var, r.state.sigma2), r.state)
  else Except.ok ((s.last_energy, s.var, s.sigma2), s)

/-- `get_potential_energy_uncertainty_and_forces` (lines 296-300). -/
def get_potential_energy_uncertainty_and_forces (c : Calc) (s : CalcState) (atoms : Atoms) :
    Except String ((ℚ × ℚ × ℚ × List (ℚ × ℚ × ℚ)) × CalcState) :=
  if calculation_required s atoms then
    match calculate c s atoms with
    | Except.error e => Except.error e
    | Except.ok r =>
      Except.ok ((r.state.last_energy, r.state.var, r.state.sigma2, r.state.last_forces), r.state)
  else Except.ok ((s.last_energy, s.var, s.sigma2, s.last_forces), s)

/-- `get_forces` (lines 302-306). -/
def get_forces (c : Calc) (s : CalcState) (atoms : Atoms) :
    Except String (List (ℚ × ℚ × ℚ) × CalcState) :=
  if calculation_required s atoms then
    match calculate c s atoms with
    | Except.error e => Except.error e
    | Except.ok r => Except.ok (r.state.last_forces, r.state)
  else Except.ok (s.last_forces, s)

/-- `get_hessian` (lines 308-311). -/
def get_hessian (c : Calc) (s : CalcState) (atoms : Atoms) :
    Except String (Option (List (List ℚ)) × CalcState) :=
  if calculation_required s atoms then
    match calculate c s atoms with
    | Except.error e => Except.error e
    | Except.ok r => Except.ok (r.state.last_hessian, r.state)
  else Except.ok (s.last_hessian, s)

/-- The tail of `__init__` (calculator.py lines 140-147): set
`_last_atoms = None`, run `calculate` once on the initial configuration to
validate wiring, then set `_last_atoms = None` again, invalidating the
cache. -/
def initCalculator (c : Calc) (atoms : Atoms) : Except String CalcState :=
  match calculate c initState atoms with
  | Except.error e => Except.error e
  | Except.ok r => Except.ok { r.state with last_atoms := none }

/-! Observation helpers: projections of accessor outcomes, used to state the
cache-gating and error-surfacing properties without binders. -/

/-- The post-call state of `get_potential_energy`, `none` on failure. -/
def stateAfterEnergy (c : Calc) (s : CalcState) (atoms : Atoms) : Option CalcState :=
  match get_potential_energy c s atoms with
  | Except.error _ => none
  | Except.ok out => some out.2

/-- The post-call state of `get_potential_energy_and_uncertainty`. -/
def stateAfterEnergyUncertainty (c : Calc) (s : CalcState) (atoms : Atoms) : Option CalcState :=
  match get_potential_energy_and_uncertainty c s atoms with
  | Except.error _ => none
  | Except.ok out => some out.2

/-- The post-call state of `get_potential_energy_uncertainty_and_forces`. -/
def stateAfterEnergyUncertaintyForces (c : Calc) (s : CalcState) (atoms : Atoms) :
    Option CalcState :=
  match get_potential_energy_uncertainty_and_forces c s atoms with
  | Except.error _ => none
  | Except.ok out => some out.2

/-- The post-call state of `get_forces`. -/
def stateAfterForces (c : Calc) (s : CalcState) (atoms : Atoms) : Option CalcState :=
  match get_forces c s atoms with
  | Except.error _ => none
  | Except.ok out => some out.2

/-- The post-call state of `get_hessian`. -/
def stateAfterHessian (c : Calc) (s : CalcState) (atoms : Atoms) : Option CalcState :=
  match get_hessian c s atoms with
  | Except.error _ => none
  | Except.ok out => some out.2

/-- The post-state of a `calculate` outcome, `none` on failure. -/
def exceptCalcState (e : Except String CalcOut) : Option CalcState :=
  match e with
  | Except.error _ => none
  | Except.ok r => some r.state

/-- One cache-gated energy query (`get_potential_energy`), instrumented with
the number of `calculate` invocations it makes.  The accessor invokes
`calculate` exactly when `calculation_required` holds; the invocation counts
whether or not the evaluation succeeds.  If it raises (the neighbor-search
failure of line 183), the raise precedes every state write of `calculate`
(lines 203, 221-231, 276-279 all come later), so the calculator's cached
state is unchanged — this models a caller that catches the exception and
queries again. -/
def energyQueryStep (c : Calc) (s : CalcState) (atoms : Atoms) : CalcState × ℕ :=
  if calculation_required s atoms then
    match calculate c s atoms with
    | Except.ok r => (r.state, 1)
    | Except.error _ => (s, 1)
  else (s, 0)

/-- Two consecutive energy queries; the total number of `calculate`
invocations they trigger. -/
def energyQueryCalls2 (c : Calc) (s : CalcState) (a1 a2 : Atoms) : ℕ :=
  (energyQueryStep c s a1).2 + (energyQueryStep c (energyQueryStep c s a1).1 a2).2

/-- The `sigma2` stored by a `calculate` outcome, `none` on failure. -/
def calcSigma2Result (e : Except String CalcOut) : Option ℚ :=
  match e with
  | Except.error _ => none
  | Except.ok r => some r.state.sigma2

/-- The `var` stored by a `calculate` outcome, `none` on failure. -/
def calcVarResult (e : Except String CalcOut) : Option ℚ :=
  match e with
  | Except.error _ => none
  | Except.ok r => some r.state.var

/-- The cached Hessian after a `calculate` outcome, `none` on failure. -/
def calcHessianResult (e : Except String CalcOut) : Option (Option (List (List ℚ))) :=
  match e with
  | Except.error _ => none
  | Except.ok r => some r.state.last_hessian

/-- The Hessian value returned by a `get_hessian` outcome. -/
def hessianPayload (e : Except String (Option (List (List ℚ)) × CalcState)) :
    Option (Option (List (List ℚ))) :=
  match e with
  | Except.error _ => none
  | Except.ok out => some out.1

/-- The cached Hessian after a `get_hessian` outcome. -/
def hessianCachedAfter (e : Except String (Option (List (List ℚ)) × CalcState)) :
    Option (Option (List (List ℚ))) :=
  match e with
  | Except.error _ => none
  | Except.ok out => some out.2.last_hessian

/-! Concrete instances used by the witnesses. -/

/-- A concrete constant network: evidential parameters
`lambda = 2, alpha = 3, beta = 4`, MD prediction `[L00, L10, L11, nu] =
[1, 1/2, 1, 5]`. -/
def constModel : Model :=
  { energy := fun _ => 1
    lambdas := fun _ => 2
    alpha := fun _ => 3
    beta := fun _ => 4
    charges := fun _ => []
    forces := fun _ => []
    hessianOut := fun _ => []
    mdPred := fun _ => { energy := 0, dipole := 0, L00 := 1, L10 := 1/2, L11 := 1, nu := 5 }
    mdForces := fun _ => []
    mdHessianOut := fun _ => [] }

/-- A two-atom, non-periodic configuration. -/
def atomsA : Atoms :=
  { numbers := [1, 1]
    positions := [(0, 0, 0), (1, 0, 0)]
    cell := [(0, 0, 0), (0, 0, 0), (0, 0, 0)]
    pbc := (false, false, false) }

/-- `atomsA` with one atom moved: differs from `atomsA` by value. -/
def atomsB : Atoms := { atomsA with positions := [(0, 0, 0), (2, 0, 0)] }

/-- `atomsA` with a periodic boundary flag set. -/
def atomsPbc : Atoms := { atomsA with pbc := (true, false, false) }

/-- Constructor arguments: no long-range cutoff, `DER_type = 'simple'`,
Hessian off. -/
def cfgA : CalcConfig :=
  { cutoff := 10
    lr_cut := none
    DER_type := some "simple"
    hessian := false
    model := constModel
    nlistPairs := fun _ _ => ([], []) }

/-- The calculator built from `cfgA` on `atomsA`. -/
def calcA : Calc := mkCalc cfgA atomsA

/-- The same calculator built with a long-range cutoff (`lr_cut = 12`), so
the neighbor-search path runs with a numeric cutoff and succeeds on
periodic configurations too. -/
def calcLR : Calc := mkCalc { cfgA with lr_cut := some 12 } atomsA

/-- The packed MD prediction of the spec's MD test vector:
`[L00, L10, L11, nu] = [1, 1/2, 1, 5]`. -/
def mdPredEx : MDPred :=
  { energy := 0, dipole := 0, L00 := 1, L10 := 1/2, L11 := 1, nu := 5 }

/-- `constModel` with a degenerate evidential output `alpha = 1`
(zero divisor in `beta / (alpha - 1)`). -/
def degenModel : Model := { constModel with alpha := fun _ => 1 }

/-- A calculator whose network reports the degenerate `alpha = 1`. -/
def calcDegen : Calc := mkCalc { cfgA with model := degenModel } atomsA

/-- A calculator configured with an unrecognized mode tag. -/
def calcX : Calc := mkCalc { cfgA with DER_type := some "XXX" } atomsA

/-! Helper lemmas about the all-pairs index construction. -/

theorem flatMap_range_length {g : ℕ → List ℕ} {c : ℕ} (hg : ∀ k, (g k).length = c) :
    ∀ n, ((List.range n).flatMap g).length = n * c := by
  intro n
  induction n with
  | zero => simp
  | succ n ih =>
    rw [List.range_succ, List.flatMap_append, List.length_append, ih]
    simp only [List.flatMap_cons, List.flatMap_nil, List.append_nil, hg]
    rw [Nat.succ_mul]

theorem flatMap_range_getElem? {g : ℕ → List ℕ} {c : ℕ} (hg : ∀ k, (g k).length = c)
    (n m : ℕ) (hm : m < n * c) :
    ((List.range n).flatMap g)[m]? = (g (m / c))[m % c]? := by
  induction n with
  | zero => rw [Nat.zero_mul] at hm; omega
  | succ n ih =>
    rcases Nat.eq_zero_or_pos c with hc0 | hc
    · rw [hc0, Nat.mul_zero] at hm; omega
    have hlen : ((List.range n).flatMap g).length = n * c := flatMap_range_length hg n
    have hsucc : (n + 1) * c = n * c + c := Nat.succ_mul n c
    simp only [List.range_succ, List.flatMap_append, List.flatMap_cons, List.flatMap_nil,
      List.append_nil]
    rw [List.getElem?_append]
    simp only [hlen]
    by_cases hmn : m < n * c
    · rw [if_pos hmn]
      exact ih hmn
    · rw [if_neg hmn]
      have hdiv : m / c = n := by
        have hlt : m / c < n + 1 := (Nat.div_lt_iff_lt_mul hc).mpr hm
        have hge : n ≤ m / c := (Nat.le_div_iff_mul_le hc).mpr (by omega)
        omega
      have hmod : m % c = m - n * c := by
        have hdm := Nat.div_add_mod m c
        rw [hdiv] at hdm
        have hcomm : c * n = n * c := Nat.mul_comm c n
        omega
      rw [hdiv, hmod]

theorem count_range_eq (x N : ℕ) : List.count x (List.range N) = if x < N then 1 else 0 := by
  induction N with
  | zero => simp
  | succ n ih =>
    rw [List.range_succ, List.count_append, ih]
    simp only [List.count_cons, List.count_nil, beq_iff_eq]
    by_cases h1 : x < n
    · simp [h1, show ¬ n = x by omega, show x < n + 1 by omega]
    · by_cases h2 : n = x
      · simp [h1, h2, show x < x + 1 by omega]
      · simp [h1, h2, show ¬ x < n + 1 by omega]

theorem count_flatten_replicate (c : ℕ) (l : List ℕ) (x : ℕ) :
    List.count x (List.replicate c l).flatten = c * List.count x l := by
  induction c with
  | zero => simp
  | succ k ih =>
    rw [List.replicate_succ, List.flatten_cons, List.count_append, ih, Nat.succ_mul]
    omega

theorem count_flatMap_replicate (N c x : ℕ) :
    List.count x ((List.range N).flatMap fun q => List.replicate c q) =
      if x < N then c else 0 := by
  induction N with
  | zero => simp
  | succ n ih =>
    rw [List.range_succ, List.flatMap_append, List.count_append, ih]
    simp only [List.flatMap_cons, List.flatMap_nil, List.append_nil, List.count_replicate,
      beq_iff_eq]
    by_cases h1 : x < n
    · simp [h1, show ¬ n = x by omega, show x < n + 1 by omega]
    · by_cases h2 : n = x
      · simp [h1, h2, show x < x + 1 by omega]
      · simp [h1, h2, show ¬ x < n + 1 by omega]

theorem perm_repeat_flat (N c : ℕ) :
    (List.replicate c (List.range N)).flatten.Perm
      ((List.range N).flatMap fun q => List.replicate c q) := by
  rw [List.perm_iff_count]
  intro x
  rw [count_flatten_replicate, count_flatMap_replicate, count_range_eq]
  by_cases h : x < N <;> simp [h]

theorem sorted_flatMap_replicate (N c : ℕ) :
    List.Sorted (· ≤ ·) ((List.range N).flatMap fun q => List.replicate c q) := by
  induction N with
  | zero => simp
  | succ n ih =>
    rw [List.range_succ, List.flatMap_append]
    refine List.pairwise_append.mpr ⟨ih, ?_, ?_⟩
    · simp only [List.flatMap_cons, List.flatMap_nil, List.append_nil]
      exact List.pairwise_replicate.mpr (Or.inr (le_refl n))
    · intro a ha b hb
      simp only [List.mem_flatMap, List.mem_range, List.mem_replicate] at ha
      simp only [List.flatMap_cons, List.flatMap_nil, List.append_nil,
        List.mem_replicate] at hb
      obtain ⟨q, hq, _, rfl⟩ := ha
      obtain ⟨_, rfl⟩ := hb
      omega

theorem get_indices_fst (N : ℕ) : (get_indices N).1 = idxIFlat N := by
  have hperm : ((List.replicate (N - 1) (List.range N)).flatten.mergeSort
      (fun a b => decide (a ≤ b))).Perm (idxIFlat N) :=
    (List.mergeSort_perm _ _).trans (perm_repeat_flat N (N - 1))
  have hs1 : List.Sorted (· ≤ ·) ((List.replicate (N - 1) (List.range N)).flatten.mergeSort
      (fun a b => decide (a ≤ b))) := by
    have h := @List.sorted_mergeSort ℕ (fun a b => decide (a ≤ b))
      (by intro a b c h1 h2; simp only [decide_eq_true_eq] at *; omega)
      (by intro a b; simp only [Bool.or_eq_true, decide_eq_true_eq]; omega)
      ((List.replicate (N - 1) (List.range N)).flatten)
    exact h.imp (fun hab => by simpa using hab)
  exact List.eq_of_perm_of_sorted hperm hs1 (sorted_flatMap_replicate N (N - 1))

theorem foldl_append_flatMap (g : ℕ → List ℕ) :
    ∀ (ks : List ℕ) (init : List ℕ),
      ks.foldl (fun acc k => acc ++ g k) init = init ++ ks.flatMap g := by
  intro ks
  induction ks with
  | nil => intro init; simp
  | cons k ks ih =>
    intro init
    rw [List.foldl_cons, ih, List.flatMap_cons, List.append_assoc]

theorem get_indices_snd (N : ℕ) (hN : 2 ≤ N) : (get_indices N).2 = idxJFlat N := by
  have h2 : (get_indices N).2 =
      (List.range N).rotate 1 ++
        (List.range' 2 (N - 2)).flatMap fun k => (List.range N).rotate k := by
    simp [get_indices, if_pos hN, foldl_append_flatMap]
  rw [h2, idxJFlat]
  have hN1 : N - 1 = (N - 2) + 1 := by omega
  rw [hN1, List.range_succ_eq_map, List.flatMap_cons, List.flatMap_map]
  congr 1
  rw [List.range'_eq_map_range, List.flatMap_map]
  congr 1
  funext k
  congr 1
  omega

theorem idxIFlat_length (N : ℕ) : (idxIFlat N).length = N * (N - 1) :=
  flatMap_range_length (fun _ => List.length_replicate _ _) N

theorem idxJFlat_length (N : ℕ) : (idxJFlat N).length = (N - 1) * N :=
  flatMap_range_length (fun _ => by rw [List.length_rotate, List.length_range]) (N - 1)

theorem idxIFlat_getElem? (N m : ℕ) (hm : m < N * (N - 1)) :
    (idxIFlat N)[m]? = some (m / (N - 1)) := by
  have hpos : 0 < N - 1 := by
    rcases Nat.eq_zero_or_pos (N - 1) with h0 | h
    · rw [h0, Nat.mul_zero] at hm; omega
    · exact h
  rw [idxIFlat, flatMap_range_getElem? (fun _ => List.length_replicate _ _) N m hm]
  rw [List.getElem?_eq_getElem (by rw [List.length_replicate]; exact Nat.mod_lt _ hpos)]
  rw [List.getElem_replicate]

theorem idxJFlat_getElem? (N m : ℕ) (hm : m < (N - 1) * N) :
    (idxJFlat N)[m]? = some ((m % N + m / N + 1) % N) := by
  have hpos : 0 < N := by
    rcases Nat.eq_zero_or_pos N with h0 | h
    · rw [h0, Nat.mul_zero] at hm; omega
    · exact h
  rw [idxJFlat, flatMap_range_getElem?
    (fun _ => by rw [List.length_rotate, List.length_range]) (N - 1) m hm]
  rw [List.getElem?_eq_getElem
    (by rw [List.length_rotate, List.length_range]; exact Nat.mod_lt _ hpos)]
  rw [List.getElem_rotate, List.getElem_range]
  rw [List.length_range, ← Nat.add_assoc]

theorem div_mod_pair_value_aux (P q r : ℕ) (hP : 1 ≤ P) (hq : q < P + 1) (hr : r < P) :
    ((P * q + r) % (P + 1) + (P * q + r) / (P + 1) + 1) % (P + 1) =
      if r < q then r else r + 1 := by
  by_cases hrq : r < q
  · rw [if_pos hrq]
    obtain ⟨u, hu⟩ : ∃ u, q = u + 1 := ⟨q - 1, by omega⟩
    have hPq : P * q = P * u + P := by rw [hu, Nat.mul_succ]
    have hP1u : (P + 1) * u = P * u + u := Nat.succ_mul P u
    have hult : u < P := by omega
    have hkey : P * q + r = (P - u + r) + (P + 1) * u := by omega
    have hs : P - u + r < P + 1 := by omega
    rw [hkey, Nat.add_mul_div_left _ _ (by omega : 0 < P + 1),
      Nat.add_mul_mod_self_left, Nat.div_eq_of_lt hs, Nat.mod_eq_of_lt hs]
    have hstep : P - u + r + (0 + u) + 1 = (P + 1) + r := by omega
    rw [hstep, Nat.add_mod_left, Nat.mod_eq_of_lt (by omega : r < P + 1)]
  · rw [if_neg hrq]
    have hqr : q ≤ r := by omega
    have hP1q : (P + 1) * q = P * q + q := Nat.succ_mul P q
    have hkey : P * q + r = (r - q) + (P + 1) * q := by omega
    have hs : r - q < P + 1 := by omega
    rw [hkey, Nat.add_mul_div_left _ _ (by omega : 0 < P + 1),
      Nat.add_mul_mod_self_left, Nat.div_eq_of_lt hs, Nat.mod_eq_of_lt hs]
    have hstep : r - q + (0 + q) + 1 = r + 1 := by omega
    rw [hstep, Nat.mod_eq_of_lt (by omega : r + 1 < P + 1)]

theorem div_mod_pair_value (N m : ℕ) (hN : 2 ≤ N) (hm : m < N * (N - 1)) :
    (m % N + m / N + 1) % N =
      if m % (N - 1) < m / (N - 1) then m % (N - 1) else m % (N - 1) + 1 := by
  obtain ⟨P, rfl⟩ : ∃ P, N = P + 1 := ⟨N - 1, by omega⟩
  have hP : 1 ≤ P := by omega
  have hm' : m < (P + 1) * P := by simpa using hm
  simp only [Nat.add_sub_cancel]
  have hq : m / P < P + 1 := (Nat.div_lt_iff_lt_mul (by omega)).mpr hm'
  have hr : m % P < P := Nat.mod_lt _ (by omega)
  have hdm : P * (m / P) + m % P = m := Nat.div_add_mod m P
  calc (m % (P + 1) + m / (P + 1) + 1) % (P + 1)
      = ((P * (m / P) + m % P) % (P + 1) + (P * (m / P) + m % P) / (P + 1) + 1) % (P + 1) := by
        rw [hdm]
    _ = if m % P < m / P then m % P else m % P + 1 :=
        div_mod_pair_value_aux P (m / P) (m % P) hP hq hr

/-! Helper lemmas about `calculate`'s control flow. -/

theorem selectBranch_simple (t : Option String) : selectBranch t = Branch.simple := by
  have h : pyTruthy "Lipz" = true := by decide
  simp [selectBranch, h]

theorem calculate_no_search (c : Calc) (s : CalcState) (a : Atoms)
    (h : (c.use_neighborlist || anyPbc a) = false) :
    calculate c s a = Except.ok { state := simpleState c s a, branch := Branch.simple } := by
  simp [calculate, h, selectBranch_simple]

theorem calculate_search_none (c : Calc) (s : CalcState) (a : Atoms)
    (hcond : (c.use_neighborlist || anyPbc a) = true) (hlr : c.lr_cutoff = none) :
    calculate c s a = Except.error "neighbor_list: cutoff must be a number, got None" := by
  simp [calculate, hcond, hlr, ase_neighbor_list]

theorem calculate_search_some (c : Calc) (s : CalcState) (a : Atoms) (lc : ℚ)
    (hcond : (c.use_neighborlist || anyPbc a) = true) (hlr : c.lr_cutoff = some lc) :
    calculate c s a = Except.ok { state := simpleState c s a, branch := Branch.simple } := by
  simp [calculate, hcond, hlr, ase_neighbor_list, selectBranch_simple]

theorem calculate_ok_inv (c : Calc) (s : CalcState) (a : Atoms) (r : CalcOut)
    (h : calculate c s a = Except.ok r) :
    r = { state := simpleState c s a, branch := Branch.simple } := by
  by_cases hcond : (c.use_neighborlist || anyPbc a) = true
  · cases hlr : c.lr_cutoff with
    | none =>
      rw [calculate_search_none c s a hcond hlr] at h
      exact absurd h (by simp)
    | some lc =>
      rw [calculate_search_some c s a lc hcond hlr] at h
      injection h with h'
      exact h'.symm
  · have hcond' : (c.use_neighborlist || anyPbc a) = false := by
      simpa using hcond
    rw [calculate_no_search c s a hcond'] at h
    injection h with h'
    exact h'.symm

theorem energyQueryStep_count (c : Calc) (s : CalcState) (a : Atoms) :
    (energyQueryStep c s a).2 = if calculation_required s a then 1 else 0 := by
  by_cases hreq : calculation_required s a
  · cases hc : calculate c s a <;> simp [energyQueryStep, hreq, hc]
  · simp [energyQueryStep, hreq]

theorem energyQueryStep_eq_ok (c : Calc) (s : CalcState) (a : Atoms) (r : CalcOut)
    (hreq : calculation_required s a = true) (hc : calculate c s a = Except.ok r) :
    energyQueryStep c s a = (r.state, 1) := by
  simp [energyQueryStep, hreq, hc]

theorem energyQueryStep_eq_error (c : Calc) (s : CalcState) (a : Atoms) (e : String)
    (hreq : calculation_required s a = true) (hc : calculate c s a = Except.error e) :
    energyQueryStep c s a = (s, 1) := by
  simp [energyQueryStep, hreq, hc]

theorem get_indices_fst_length (N : ℕ) : (get_indices N).1.length = N * (N - 1) := by
  rw [get_indices_fst, idxIFlat_length]

theorem get_indices_snd_length (N : ℕ) (hN : 2 ≤ N) :
    (get_indices N).2.length = N * (N - 1) := by
  rw [get_indices_snd N hN, idxJFlat_length, Nat.mul_comm]

theorem get_indices_fst_getElem? (N m : ℕ) (hm : m < N * (N - 1)) :
    (get_indices N).1[m]? = some (m / (N - 1)) := by
  rw [get_indices_fst]
  exact idxIFlat_getElem? N m hm

theorem get_indices_snd_getElem? (N m : ℕ) (hN : 2 ≤ N) (hm : m < N * (N - 1)) :
    (get_indices N).2[m]? = some ((m % N + m / N + 1) % N) := by
  rw [get_indices_snd N hN]
  exact idxJFlat_getElem? N m (by rw [Nat.mul_comm]; exact hm)

theorem get_indices_fst_getElem (N m : ℕ) (hm : m < N * (N - 1))
    (hb : m < (get_indices N).1.length) :
    (get_indices N).1[m] = m / (N - 1) := by
  have h1 := get_indices_fst_getElem? N m hm
  have h2 := List.getElem?_eq_getElem hb
  rw [h2] at h1
  exact Option.some.inj h1

theorem get_indices_snd_getElem (N m : ℕ) (hN : 2 ≤ N) (hm : m < N * (N - 1))
    (hb : m < (get_indices N).2.length) :
    (get_indices N).2[m] = (m % N + m / N + 1) % N := by
  have h1 := get_indices_snd_getElem? N m hN hm
  have h2 := List.getElem?_eq_getElem hb
  rw [h2] at h1
  exact Option.some.inj h1

theorem pair_mem_of_index (N i j m : ℕ) (hN : 2 ≤ N) (hm : m < N * (N - 1))
    (hv1 : m / (N - 1) = i) (hv2 : (m % N + m / N + 1) % N = j) :
    (i, j) ∈ (get_indices N).1.zip (get_indices N).2 := by
  have hb1 : m < (get_indices N).1.length := by rw [get_indices_fst_length]; exact hm
  have hb2 : m < (get_indices N).2.length := by rw [get_indices_snd_length N hN]; exact hm
  have hbz : m < ((get_indices N).1.zip (get_indices N).2).length := by
    rw [List.length_zip, get_indices_fst_length, get_indices_snd_length N hN, Nat.min_self]
    exact hm
  refine List.mem_iff_getElem.mpr ⟨m, hbz, ?_⟩
  rw [List.getElem_zip, get_indices_fst_getElem N m hm hb1,
    get_indices_snd_getElem N m hN hm hb2, hv1, hv2]

/-- C4 counterexample: at `N = 1` the construction does not error, but the
returned sequences are `([], [0])`: `idx_j` still holds the single rotation
`torch.roll([0], -1) = [0]`, so the two sequences do not have equal
length. -/
theorem get_indices_single_atom :
    get_indices 1 = ([], [0]) ∧
    decide ((get_indices 1).1.length = (get_indices 1).2.length) = false := by
  have h : get_indices 1 = ([], [0]) := by
    norm_num [get_indices, List.mergeSort_nil, List.rotate,
      show List.range 1 = [0] from rfl]
  refine ⟨h, ?_⟩
  rw [h]
  rfl

/-- C4 (amended): for every atom count `N ≥ 2`, `get_indices` returns two
sequences of equal length `N * (N - 1)` whose positionwise pairs are ordered
pairs of distinct atom indices below `N`, and every such pair is covered.
(As the counterexample shows, at `N = 1` the two sequences are `[]` and
`[0]`, of unequal lengths, though no error occurs.) -/
theorem get_indices_all_pairs (N : ℕ) (hN : 2 ≤ N) :
    (get_indices N).1.length = N * (N - 1) ∧
    (get_indices N).2.length = N * (N - 1) ∧
    (∀ p ∈ (get_indices N).1.zip (get_indices N).2, p.1 < N ∧ p.2 < N ∧ p.1 ≠ p.2) ∧
    (∀ i j : ℕ, i < N → j < N → i ≠ j →
      (i, j) ∈ (get_indices N).1.zip (get_indices N).2) := by
  have hpos : 0 < N - 1 := by omega
  refine ⟨get_indices_fst_length N, get_indices_snd_length N hN, ?_, ?_⟩
  · intro p hp
    obtain ⟨m, hmz, hpm⟩ := List.mem_iff_getElem.mp hp
    have hmN : m < N * (N - 1) := by
      rw [List.length_zip, get_indices_fst_length, get_indices_snd_length N hN,
        Nat.min_self] at hmz
      exact hmz
    have hb1 : m < (get_indices N).1.length := by rw [get_indices_fst_length]; exact hmN
    have hb2 : m < (get_indices N).2.length := by rw [get_indices_snd_length N hN]; exact hmN
    rw [List.getElem_zip, get_indices_fst_getElem N m hmN hb1,
      get_indices_snd_getElem N m hN hmN hb2] at hpm
    rw [← hpm]
    refine ⟨?_, ?_, ?_⟩
    · exact (Nat.div_lt_iff_lt_mul hpos).mpr hmN
    · exact Nat.mod_lt _ (by omega)
    · rw [div_mod_pair_value N m hN hmN]
      by_cases hc : m % (N - 1) < m / (N - 1)
      · rw [if_pos hc]
        exact fun heq => absurd heq.symm (Nat.ne_of_lt hc)
      · rw [if_neg hc]
        have : m / (N - 1) ≤ m % (N - 1) := by omega
        exact Nat.ne_of_lt (by omega)
  · intro i j hi hj hij
    by_cases hji : j < i
    · have hrr : j < N - 1 := by omega
      have hcm : i * (N - 1) = (N - 1) * i := Nat.mul_comm _ _
      have hm : i * (N - 1) + j < N * (N - 1) := by
        have hile : i ≤ N - 1 := by omega
        have h1 : i * (N - 1) ≤ (N - 1) * (N - 1) := Nat.mul_le_mul_right _ hile
        have h2 : N * (N - 1) = (N - 1) * (N - 1) + (N - 1) := by
          have h3 : N = (N - 1) + 1 := by omega
          calc N * (N - 1) = ((N - 1) + 1) * (N - 1) := by rw [← h3]
            _ = (N - 1) * (N - 1) + (N - 1) := Nat.succ_mul _ _
        omega
      have hrew : i * (N - 1) + j = j + (N - 1) * i := by omega
      have hv1 : (i * (N - 1) + j) / (N - 1) = i := by
        rw [hrew, Nat.add_mul_div_left _ _ hpos, Nat.div_eq_of_lt hrr, Nat.zero_add]
      have hmod : (i * (N - 1) + j) % (N - 1) = j := by
        rw [hrew, Nat.add_mul_mod_self_left, Nat.mod_eq_of_lt hrr]
      have hv2 : ((i * (N - 1) + j) % N + (i * (N - 1) + j) / N + 1) % N = j := by
        rw [div_mod_pair_value N _ hN hm, hmod, hv1, if_pos hji]
      exact pair_mem_of_index N i j (i * (N - 1) + j) hN hm hv1 hv2
    · have hijlt : i < j := by omega
      have hrr : j - 1 < N - 1 := by omega
      have hcm : i * (N - 1) = (N - 1) * i := Nat.mul_comm _ _
      have hm : i * (N - 1) + (j - 1) < N * (N - 1) := by
        have hile : i ≤ N - 1 := by omega
        have h1 : i * (N - 1) ≤ (N - 1) * (N - 1) := Nat.mul_le_mul_right _ hile
        have h2 : N * (N - 1) = (N - 1) * (N - 1) + (N - 1) := by
          have h3 : N = (N - 1) + 1 := by omega
          calc N * (N - 1) = ((N - 1) + 1) * (N - 1) := by rw [← h3]
            _ = (N - 1) * (N - 1) + (N - 1) := Nat.succ_mul _ _
        omega
      have hrew : i * (N - 1) + (j - 1) = (j - 1) + (N - 1) * i := by omega
      have hv1 : (i * (N - 1) + (j - 1)) / (N - 1) = i := by
        rw [hrew, Nat.add_mul_div_left _ _ hpos, Nat.div_eq_of_lt hrr, Nat.zero_add]
      have hmod : (i * (N - 1) + (j - 1)) % (N - 1) = j - 1 := by
        rw [hrew, Nat.add_mul_mod_self_left, Nat.mod_eq_of_lt hrr]
      have hv2 : ((i * (N - 1) + (j - 1)) % N + (i * (N - 1) + (j - 1)) / N + 1) % N = j := by
        rw [div_mod_pair_value N _ hN hm, hmod, hv1, if_neg (by omega)]
        omega
      exact pair_mem_of_index N i j (i * (N - 1) + (j - 1)) hN hm hv1 hv2

/-- C4 witness: the amended theorem applied at the concrete atom count
`N = 2`: both index sequences have length `2`, and both ordered pairs of
distinct indices are covered. -/
theorem get_indices_all_pairs_witness :
    (get_indices 2).1.length = 2 * (2 - 1) ∧
    (get_indices 2).2.length = 2 * (2 - 1) ∧
    (0, 1) ∈ (get_indices 2).1.zip (get_indices 2).2 ∧
    (1, 0) ∈ (get_indices 2).1.zip (get_indices 2).2 := by
  obtain ⟨h1, h2, _, h4⟩ := get_indices_all_pairs 2 (by decide)
  exact ⟨h1, h2, h4 0 1 (by decide) (by decide) (by decide),
    h4 1 0 (by decide) (by decide) (by decide)⟩

/-- C1 counterexample: on the calculator with no long-range cutoff, a
periodic configuration queried twice in a row triggers TWO `calculate`
invocations, not exactly one as the claim states: the first invocation fails
in the neighbor search before any state is written, so nothing is cached and
the repeated identical query invokes `calculate` again. -/
theorem periodic_repeat_query_two_calls :
    energyQueryCalls2 calcA initState atomsPbc atomsPbc = 2 ∧
    decide (energyQueryCalls2 calcA initState atomsPbc atomsPbc = 1) = false ∧
    (calculate calcA initState atomsPbc).isOk = false := by
  exact ⟨by decide, by decide, by decide⟩

/-- C1 (amended): `calculation_required` is true exactly when no cached
configuration exists or the queried configuration differs by value
(positions, atomic numbers, cell or periodic flags) from the cached one;
every public accessor, on every calculator and every queried configuration,
invokes `calculate` exactly when the predicate is true (its post-state is
`calculate`'s outcome when the predicate holds, the untouched cache
otherwise); each successful `calculate` counts one recomputation; querying
C1 then a value-different C2 from a fresh cache always triggers exactly two
`calculate` invocations — for every calculator, including pairs differing
only in periodic flags and calculators with a long-range cutoff, whether or
not the evaluations succeed.  Querying the same C1 twice triggers exactly
one invocation when the first evaluation succeeds; if it fails (the
`lr_cut = None` periodic path), nothing is cached and the repeat query
triggers a second invocation. -/
theorem accessor_cache_contract :
    (∀ (s : CalcState) (a : Atoms),
      calculation_required s a = true ↔ (s.last_atoms = none ∨ s.last_atoms ≠ some a)) ∧
    (∀ (c : Calc) (s : CalcState) (a : Atoms),
      stateAfterEnergy c s a =
          (if calculation_required s a then exceptCalcState (calculate c s a) else some s) ∧
      stateAfterEnergyUncertainty c s a =
          (if calculation_required s a then exceptCalcState (calculate c s a) else some s) ∧
      stateAfterEnergyUncertaintyForces c s a =
          (if calculation_required s a then exceptCalcState (calculate c s a) else some s) ∧
      stateAfterForces c s a =
          (if calculation_required s a then exceptCalcState (calculate c s a) else some s) ∧
      stateAfterHessian c s a =
          (if calculation_required s a then exceptCalcState (calculate c s a) else some s)) ∧
    (∀ (c : Calc) (s : CalcState) (a : Atoms) (r : CalcOut),
      calculate c s a = Except.ok r → r.state.calcCount = s.calcCount + 1) ∧
    (∀ (c : Calc) (s : CalcState) (a1 a2 : Atoms),
      s.last_atoms = none → a1 ≠ a2 → energyQueryCalls2 c s a1 a2 = 2) ∧
    (∀ (c : Calc) (s : CalcState) (a1 : Atoms),
      s.last_atoms = none → (calculate c s a1).isOk = true →
      energyQueryCalls2 c s a1 a1 = 1) ∧
    (∀ (c : Calc) (s : CalcState) (a1 : Atoms),
      s.last_atoms = none → (calculate c s a1).isOk = false →
      energyQueryCalls2 c s a1 a1 = 2) := by
  refine ⟨?_, ?_, ?_, ?_, ?_, ?_⟩
  · intro s a
    cases hla : s.last_atoms with
    | none => simp [calculation_required, hla]
    | some la => simp [calculation_required, hla, ne_comm]
  · intro c s a
    by_cases hreq : calculation_required s a
    · cases hc : calculate c s a with
      | error e =>
        refine ⟨?_, ?_, ?_, ?_, ?_⟩ <;>
          simp [stateAfterEnergy, stateAfterEnergyUncertainty,
            stateAfterEnergyUncertaintyForces, stateAfterForces, stateAfterHessian,
            get_potential_energy, get_potential_energy_and_uncertainty,
            get_potential_energy_uncertainty_and_forces, get_forces, get_hessian,
            exceptCalcState, hreq, hc]
      | ok r =>
        refine ⟨?_, ?_, ?_, ?_, ?_⟩ <;>
          simp [stateAfterEnergy, stateAfterEnergyUncertainty,
            stateAfterEnergyUncertaintyForces, stateAfterForces, stateAfterHessian,
            get_potential_energy, get_potential_energy_and_uncertainty,
            get_potential_energy_uncertainty_and_forces, get_forces, get_hessian,
            exceptCalcState, hreq, hc]
    · refine ⟨?_, ?_, ?_, ?_, ?_⟩ <;>
        simp [stateAfterEnergy, stateAfterEnergyUncertainty,
          stateAfterEnergyUncertaintyForces, stateAfterForces, stateAfterHessian,
          get_potential_energy, get_potential_energy_and_uncertainty,
          get_potential_energy_uncertainty_and_forces, get_forces, get_hessian,
          hreq]
  · intro c s a r h
    rw [calculate_ok_inv c s a r h]
    simp [simpleState]
  · intro c s a1 a2 hs hne
    have hreq1 : calculation_required s a1 = true := by simp [calculation_required, hs]
    cases hc : calculate c s a1 with
    | error e =>
      have hreq2 : calculation_required s a2 = true := by simp [calculation_required, hs]
      simp [energyQueryCalls2, energyQueryStep_eq_error c s a1 e hreq1 hc,
        energyQueryStep_count, hreq2]
    | ok r =>
      have hr := calculate_ok_inv c s a1 r hc
      subst hr
      have hreq2 : calculation_required (simpleState c s a1) a2 = true := by
        simp only [calculation_required, simpleState]
        exact decide_eq_true (fun h => hne h.symm)
      simp [energyQueryCalls2, energyQueryStep_eq_ok c s a1 _ hreq1 hc,
        energyQueryStep_count, hreq2]
  · intro c s a1 hs hok
    have hreq1 : calculation_required s a1 = true := by simp [calculation_required, hs]
    cases hc : calculate c s a1 with
    | error e => rw [hc] at hok; exact absurd hok (by simp [Except.isOk, Except.toBool])
    | ok r =>
      have hr := calculate_ok_inv c s a1 r hc
      subst hr
      have hreq2 : calculation_required (simpleState c s a1) a1 = false := by
        simp [calculation_required, simpleState]
      simp [energyQueryCalls2, energyQueryStep_eq_ok c s a1 _ hreq1 hc,
        energyQueryStep_count, hreq2]
  · intro c s a1 hs hko
    have hreq1 : calculation_required s a1 = true := by simp [calculation_required, hs]
    cases hc : calculate c s a1 with
    | ok r => rw [hc] at hko; exact absurd hko (by simp [Except.isOk, Except.toBool])
    | error e =>
      simp [energyQueryCalls2, energyQueryStep_eq_error c s a1 e hreq1 hc,
        energyQueryStep_count, hreq1]

/-- C1 witness: the amended contract at concrete inputs — two invocations
for the value-different pairs `(atomsA, atomsB)` (moved atom),
`(atomsA, atomsPbc)` (differing only in periodic flags, second evaluation
failing), and `(atomsA, atomsPbc)` on the long-range-cutoff calculator
(both evaluations succeeding); one invocation for the repeated successful
`atomsA` query; and the gating equation for `get_potential_energy`. -/
theorem accessor_cache_contract_witness :
    energyQueryCalls2 calcA initState atomsA atomsB = 2 ∧
    energyQueryCalls2 calcA initState atomsA atomsPbc = 2 ∧
    energyQueryCalls2 calcLR initState atomsA atomsPbc = 2 ∧
    energyQueryCalls2 calcA initState atomsA atomsA = 1 ∧
    stateAfterEnergy calcA initState atomsA =
      (if calculation_required initState atomsA then
        exceptCalcState (calculate calcA initState atomsA) else some initState) :=
  ⟨accessor_cache_contract.2.2.2.1 calcA initState atomsA atomsB (by decide) (by decide),
   accessor_cache_contract.2.2.2.1 calcA initState atomsA atomsPbc (by decide) (by decide),
   accessor_cache_contract.2.2.2.1 calcLR initState atomsA atomsPbc (by decide) (by decide),
   accessor_cache_contract.2.2.2.2.1 calcA initState atomsA (by decide) (by decide),
   (accessor_cache_contract.2.1 calcA initState atomsA).1⟩

/-- C2: the dispatch condition `self.DER_type == 'simple' or 'Lipz'` of
`calculate` contains the always-truthy subcondition `'Lipz'`, so for every
configured mode tag the simple/Lipschitz branch is selected; the MD branch
is unreachable and every successful `calculate` ran the simple branch. -/
theorem dispatch_always_selects_simple :
    (∀ t : Option String, selectBranch t = Branch.simple) ∧
    pyTruthy "Lipz" = true ∧
    (∀ (c : Calc) (s : CalcState) (a : Atoms) (r : CalcOut),
      calculate c s a = Except.ok r → r.branch = Branch.simple) := by
  refine ⟨selectBranch_simple, by decide, ?_⟩
  intro c s a r h
  rw [calculate_ok_inv c s a r h]

/-- C2 witness: the concrete calculator configured with mode tag `'MD'`
still runs the simple branch. -/
theorem dispatch_always_selects_simple_witness :
    selectBranch (some "MD") = Branch.simple ∧
    ({ state := simpleState calcA initState atomsA, branch := Branch.simple } : CalcOut).branch =
      Branch.simple :=
  ⟨dispatch_always_selects_simple.1 (some "MD"),
   dispatch_always_selects_simple.2.2 calcA initState atomsA
     { state := simpleState calcA initState atomsA, branch := Branch.simple }
     (calculate_no_search calcA initState atomsA rfl)⟩

/-- C3: evaluating the code at the failing input: with the unrecognized mode
tag `'XXX'`, `calculate` raises no dispatch error at all — it silently
selects and completes the simple/Lipschitz branch (the dispatch chain has no
`else`/`raise`, and its first condition is always true). -/
theorem unrecognized_tag_no_dispatch_error :
    selectBranch (some "XXX") = Branch.simple ∧
    (calculate calcX initState atomsA).isOk = true := by
  exact ⟨by decide, by decide⟩

/-- C5: in the simple/Lipschitz branch, `sigma2 = beta / (alpha - 1)` and
`variance = sigma2 / lambda`; at `lambda = 2, alpha = 3, beta = 4` this
yields `sigma2 = 2` and `variance = 1`, and a successful `calculate` stores
exactly these derived values. -/
theorem simple_mode_uncertainty_derivation :
    ∀ (lam al be : ℚ) (c : Calc) (s : CalcState) (a : Atoms),
      c.use_neighborlist = false → anyPbc a = false →
      (simpleUncertainty lam al be).1 = be / (al - 1) ∧
      (simpleUncertainty lam al be).2 = (simpleUncertainty lam al be).1 / lam ∧
      simpleUncertainty 2 3 4 = (2, 1) ∧
      calcSigma2Result (calculate c s a) =
          some (c.model.beta a / (c.model.alpha a - 1)) ∧
      calcVarResult (calculate c s a) =
          some ((c.model.beta a / (c.model.alpha a - 1)) / c.model.lambdas a) := by
  intro lam al be c s a h1 h2
  have hcalc := calculate_no_search c s a (by rw [h1, h2]; rfl)
  refine ⟨rfl, ?_, by norm_num [simpleUncertainty], ?_, ?_⟩
  · simp only [simpleUncertainty]
    rw [one_div_mul_eq_div]
  · simp [calcSigma2Result, hcalc, simpleState, simpleUncertainty]
  · simp only [calcVarResult, hcalc, simpleState, simpleUncertainty]
    rw [one_div_mul_eq_div]

/-- C5 witness: the derivation at the concrete evidential parameters
`lambda = 2, alpha = 3, beta = 4` on the concrete calculator. -/
theorem simple_mode_uncertainty_derivation_witness :
    (simpleUncertainty 2 3 4).1 = 4 / (3 - 1) ∧
    (simpleUncertainty 2 3 4).2 = (simpleUncertainty 2 3 4).1 / 2 ∧
    simpleUncertainty 2 3 4 = (2, 1) ∧
    calcSigma2Result (calculate calcA initState atomsA) =
        some (calcA.model.beta atomsA / (calcA.model.alpha atomsA - 1)) ∧
    calcVarResult (calculate calcA initState atomsA) =
        some ((calcA.model.beta atomsA / (calcA.model.alpha atomsA - 1)) /
          calcA.model.lambdas atomsA) :=
  simple_mode_uncertainty_derivation 2 3 4 calcA initState atomsA (by decide) (by decide)

/-- C6: evaluating the MD branch at the packed outputs
`L00 = 1, L10 = 1/2, L11 = 1, nu = 5`: the covariance entry
`sigma[0,0] = 1` and the derived `variance[0,0] = 1/2` match the claim, but
the value the branch stores as `sigma2` is `sigma[0,0] = 1`, not the derived
`sigma2[0,0] = nu/(nu-3) * sigma[0,0] = 5/2`: line 259 stores the raw
covariance entry even though line 255 computed the `sigma2` matrix. -/
theorem md_branch_stored_sigma2_eval :
    mdSigma mdPredEx 0 0 = 1 ∧
    mdSigma2Mat mdPredEx 0 0 = 5 / 2 ∧
    mdVarMat mdPredEx 0 0 = 1 / 2 ∧
    mdStored mdPredEx = (1, 1 / 2) ∧
    (mdStored mdPredEx).1 ≠ mdSigma2Mat mdPredEx 0 0 := by
  have hsig : mdSigma mdPredEx 0 0 = 1 := by
    simp [mdSigma, mdL, mdPredEx, Matrix.mul_apply, Fin.sum_univ_two]
  have hsig2 : mdSigma2Mat mdPredEx 0 0 = 5 / 2 := by
    simp only [mdSigma2Mat, Matrix.smul_apply, hsig, smul_eq_mul]
    norm_num [mdPredEx]
  have hvar : mdVarMat mdPredEx 0 0 = 1 / 2 := by
    simp only [mdVarMat, Matrix.smul_apply, hsig2, smul_eq_mul]
    norm_num [mdPredEx]
  refine ⟨hsig, hsig2, hvar, ?_, ?_⟩
  · simp only [mdStored, hsig, hvar]
  · simp only [mdStored, hsig2]
    norm_num [hsig]

/-- C7 counterexample: with the degenerate evidential output `alpha = 1`
(zero divisor), `calculate` completes successfully — no labeled numeric
error is surfaced to the caller. -/
theorem degenerate_alpha_completes_without_error :
    calcDegen.model.alpha atomsA ≤ 1 ∧
    (calculate calcDegen initState atomsA).isOk = true := by
  exact ⟨by decide, by decide⟩

/-- C7 (amended): `calculate` performs no degeneracy check on the evidential
parameters: for every network output, including `alpha ≤ 1`, the simple
branch completes without any error and silently stores
`sigma2 = beta / (alpha - 1)` and `variance = (1 / lambda) * sigma2` exactly
as the arithmetic produces them. -/
theorem calculate_has_no_degeneracy_check :
    ∀ (c : Calc) (s : CalcState) (a : Atoms),
      c.use_neighborlist = false → anyPbc a = false →
      (calculate c s a).isOk = true ∧
      calcSigma2Result (calculate c s a) =
          some (c.model.beta a / (c.model.alpha a - 1)) ∧
      calcVarResult (calculate c s a) =
          some ((1 / c.model.lambdas a) * (c.model.beta a / (c.model.alpha a - 1))) := by
  intro c s a h1 h2
  have hcalc := calculate_no_search c s a (by rw [h1, h2]; rfl)
  refine ⟨?_, ?_, ?_⟩
  · rw [hcalc]; rfl
  · simp [calcSigma2Result, hcalc, simpleState, simpleUncertainty]
  · simp [calcVarResult, hcalc, simpleState, simpleUncertainty]

/-- C7 witness: the amended theorem at the degenerate concrete calculator
(`alpha = 1`). -/
theorem calculate_has_no_degeneracy_check_witness :
    (calculate calcDegen initState atomsA).isOk = true ∧
    calcSigma2Result (calculate calcDegen initState atomsA) =
        some (calcDegen.model.beta atomsA / (calcDegen.model.alpha atomsA - 1)) ∧
    calcVarResult (calculate calcDegen initState atomsA) =
        some ((1 / calcDegen.model.lambdas atomsA) *
          (calcDegen.model.beta atomsA / (calcDegen.model.alpha atomsA - 1))) :=
  calculate_has_no_degeneracy_check calcDegen initState atomsA (by decide) (by decide)

/-- C8: whenever construction completes, exactly one `calculate` ran during
it, the cached configuration is reset to `None`, and the first public query
on any configuration finds `calculation_required` true. -/
theorem init_warmup_then_cache_reset :
    ∀ (c : Calc) (a0 : Atoms) (s : CalcState),
      initCalculator c a0 = Except.ok s →
      s.calcCount = 1 ∧ s.last_atoms = none ∧
      ∀ a, calculation_required s a = true := by
  intro c a0 s h
  rw [initCalculator] at h
  cases hc : calculate c initState a0 with
  | error e => rw [hc] at h; exact absurd h (by simp)
  | ok r =>
    rw [hc] at h
    injection h with h'
    have hr := calculate_ok_inv c initState a0 r hc
    subst hr
    subst h'
    refine ⟨by simp [simpleState, initState], by simp, ?_⟩
    intro a
    simp [calculation_required]

/-- C8 witness: construction of the concrete calculator on `atomsA`. -/
theorem init_warmup_then_cache_reset_witness :
    ({ simpleState calcA initState atomsA with last_atoms := none } : CalcState).calcCount = 1 ∧
    ({ simpleState calcA initState atomsA with last_atoms := none } : CalcState).last_atoms = none ∧
    calculation_required
      { simpleState calcA initState atomsA with last_atoms := none } atomsB = true := by
  have h := init_warmup_then_cache_reset calcA atomsA
    { simpleState calcA initState atomsA with last_atoms := none }
    (by simp only [initCalculator, calculate_no_search calcA initState atomsA rfl])
  exact ⟨h.1, h.2.1, h.2.2 atomsB⟩

/-- C9 counterexample: on the calculator constructed with the Hessian flag
false and no long-range cutoff, querying a periodic configuration makes
`get_hessian` raise the neighbor-search error instead of returning `None`,
contradicting the claim's "for every queried configuration rather than
raising". -/
theorem get_hessian_periodic_raises :
    calcA.hessian_active = false ∧
    get_hessian calcA initState atomsPbc =
      Except.error "neighbor_list: cutoff must be a number, got None" ∧
    (get_hessian calcA initState atomsPbc).isOk = false := by
  have hreq : calculation_required initState atomsPbc = true := by decide
  have hc : calculate calcA initState atomsPbc =
      Except.error "neighbor_list: cutoff must be a number, got None" :=
    calculate_search_none calcA initState atomsPbc (by decide) (by decide)
  have hg : get_hessian calcA initState atomsPbc =
      Except.error "neighbor_list: cutoff must be a number, got None" := by
    simp [get_hessian, hreq, hc]
  exact ⟨by decide, hg, by rw [hg]; rfl⟩

/-- C9 (amended): with the Hessian flag false, `calculate` never stores a
Hessian — on every calculator, state and queried configuration, a successful
`calculate` leaves `None` cached — and whenever `get_hessian` completes it
returns `None` and leaves `None` cached, so it never returns a stale matrix;
on every non-periodic query of a no-neighborlist calculator it does
complete.  On the `lr_cut = None` periodic path the evaluation instead
propagates the neighbor-search failure (the C10 behavior), as the
counterexample shows. -/
theorem hessian_flag_false_yields_none :
    ∀ (c : Calc) (s : CalcState) (a : Atoms),
      c.hessian_active = false → s.last_hessian = none →
      calcHessianResult (calculate c s a) =
          (if (calculate c s a).isOk then some none else none) ∧
      hessianPayload (get_hessian c s a) =
          (if (get_hessian c s a).isOk then some none else none) ∧
      hessianCachedAfter (get_hessian c s a) =
          (if (get_hessian c s a).isOk then some none else none) ∧
      (c.use_neighborlist = false → anyPbc a = false →
        (get_hessian c s a).isOk = true) := by
  intro c s a hh hs
  refine ⟨?_, ?_, ?_, ?_⟩
  · cases hc : calculate c s a with
    | error e => simp [calcHessianResult, hc, Except.isOk, Except.toBool]
    | ok r =>
      have hr := calculate_ok_inv c s a r hc
      subst hr
      simp [calcHessianResult, hc, Except.isOk, Except.toBool, simpleState, hh]
  · by_cases hreq : calculation_required s a
    · cases hc : calculate c s a with
      | error e => simp [hessianPayload, get_hessian, hreq, hc, Except.isOk, Except.toBool]
      | ok r =>
        have hr := calculate_ok_inv c s a r hc
        subst hr
        simp [hessianPayload, get_hessian, hreq, hc, Except.isOk, Except.toBool, simpleState, hh]
    · simp [hessianPayload, get_hessian, hreq, Except.isOk, Except.toBool, hs]
  · by_cases hreq : calculation_required s a
    · cases hc : calculate c s a with
      | error e => simp [hessianCachedAfter, get_hessian, hreq, hc, Except.isOk, Except.toBool]
      | ok r =>
        have hr := calculate_ok_inv c s a r hc
        subst hr
        simp [hessianCachedAfter, get_hessian, hreq, hc, Except.isOk, Except.toBool, simpleState, hh]
    · simp [hessianCachedAfter, get_hessian, hreq, Except.isOk, Except.toBool, hs]
  · intro h1 h2
    have hcalc := calculate_no_search c s a (by rw [h1, h2]; rfl)
    by_cases hreq : calculation_required s a <;>
      simp [get_hessian, hreq, hcalc, Except.isOk, Except.toBool]

/-- C9 witness: the amended theorem at the concrete calculator (Hessian flag
false) queried on `atomsA`, including the successful-completion conjunct. -/
theorem hessian_flag_false_yields_none_witness :
    calcHessianResult (calculate calcA initState atomsA) =
        (if (calculate calcA initState atomsA).isOk then some none else none) ∧
    hessianPayload (get_hessian calcA initState atomsA) =
        (if (get_hessian calcA initState atomsA).isOk then some none else none) ∧
    hessianCachedAfter (get_hessian calcA initState atomsA) =
        (if (get_hessian calcA initState atomsA).isOk then some none else none) ∧
    (get_hessian calcA initState atomsA).isOk = true := by
  have h := hessian_flag_false_yields_none calcA initState atomsA (by decide) (by decide)
  exact ⟨h.1, h.2.1, h.2.2.1, h.2.2.2 (by decide) (by decide)⟩

/-- C10: constructing with `lr_cut = None` stores `None` as the long-range
cutoff and disables the neighborlist flag; querying any configuration with a
periodic flag set then routes `calculate` into the distance-cutoff neighbor
search with the `None` cutoff, which fails — there is no fallback to the
short-range cutoff or to the static all-pairs index. -/
theorem none_lr_cutoff_periodic_eval_fails :
    ∀ (cfg : CalcConfig) (a0 : Atoms), cfg.lr_cut = none →
      (mkCalc cfg a0).lr_cutoff = none ∧
      (mkCalc cfg a0).use_neighborlist = false ∧
      ∀ (s : CalcState) (a : Atoms), anyPbc a = true →
        calculate (mkCalc cfg a0) s a =
          Except.error "neighbor_list: cutoff must be a number, got None" := by
  intro cfg a0 h
  have hlr : (mkCalc cfg a0).lr_cutoff = none := by simp [mkCalc, h]
  have hnl : (mkCalc cfg a0).use_neighborlist = false := by simp [mkCalc, h]
  refine ⟨hlr, hnl, ?_⟩
  intro s a hpbc
  exact calculate_search_none _ s a (by rw [hnl, hpbc]; rfl) hlr

/-- C10 witness: the concrete no-long-range-cutoff configuration queried on
a periodic configuration fails with the neighbor-search error. -/
theorem none_lr_cutoff_periodic_eval_fails_witness :
    (mkCalc cfgA atomsA).lr_cutoff = none ∧
    (mkCalc cfgA atomsA).use_neighborlist = false ∧
    calculate (mkCalc cfgA atomsA) initState atomsPbc =
      Except.error "neighbor_list: cutoff must be a number, got None" :=
  ⟨(none_lr_cutoff_periodic_eval_fails cfgA atomsA rfl).1,
   (none_lr_cutoff_periodic_eval_fails cfgA atomsA rfl).2.1,
   (none_lr_cutoff_periodic_eval_fails cfgA atomsA rfl).2.2 initState atomsPbc (by decide)⟩

end PhysNetCalc
